import Mathlib

/-!
Shallow embedding of `src/modbus/modbus_ascii.py` (MODBUS-ASCII master/slave
utility).  Bytes are modelled as `Nat` (with `< 256` hypotheses where the
Python `bytes` type guarantees it), byte strings as `List Nat`, wall-clock
times as `ℚ`, and Python exceptions as an explicit error type.
-/

namespace ModbusAscii

/-- Python exceptions raised by the codec.  `parse_ascii_frame` raises
`ValueError` explicitly ("Bad frame delimiters", "Bad frame length",
"LRC error"); `bytes.fromhex` and tuple unpacking raise `ValueError` with
their own messages; `bytes.decode` raises `UnicodeDecodeError`, which in
Python is a subclass of `ValueError`. -/
inductive PyError where
  | valueError (msg : String)
  | unicodeDecodeError (msg : String)
  deriving DecidableEq, Repr

/-- Name of the concrete Python exception class (`type(e).__name__`). -/
def PyError.pyClass : PyError → String
  | .valueError _ => "ValueError"
  | .unicodeDecodeError _ => "UnicodeDecodeError"

/-- Message carried by the exception (`str(e)`). -/
def PyError.pyMsg : PyError → String
  | .valueError m => m
  | .unicodeDecodeError m => m

/-- Whether `isinstance(e, ValueError)` holds in Python.  `UnicodeDecodeError`
is a subclass of `ValueError`, so every error of this model is one; the
slave's `except ValueError` therefore catches all of them. -/
def PyError.isValueErrorInstance : PyError → Bool
  | .valueError _ => true
  | .unicodeDecodeError _ => true

/-- Embedding of `calc_lrc`: `(-sum(payload)) & 0xFF`.  On Python's
arbitrary-precision integers `& 0xFF` extracts the low 8 bits of the two's
complement, i.e. the value modulo 256. -/
def calc_lrc (payload : List Nat) : Nat :=
  ((-(payload.sum : Int)) % 256).toNat

/-- Uppercase hexadecimal digit for a nibble (`0-9A-F`), as a byte. -/
def hexDigitU (n : Nat) : Nat :=
  if n < 10 then 48 + n else 55 + n

/-- Two uppercase hex digits of one byte, as produced both by
`payload.hex().upper()` and by the format `{lrc:02X}` for values below 256. -/
def hexByteU (b : Nat) : List Nat :=
  [hexDigitU (b / 16), hexDigitU (b % 16)]

/-- Uppercase hex encoding of a byte string (`payload.hex().upper()`). -/
def hexEncodeU (l : List Nat) : List Nat :=
  (l.map hexByteU).flatten

/-- Frame bytes produced by `build_ascii_frame` once its checks pass:
`f":{hex_payload}{lrc:02X}\r\n".encode()` with `payload = bytes([addr, func]) + data`. -/
def build_frame_bytes (addr func : Nat) (data : List Nat) : List Nat :=
  let payload := addr :: func :: data
  58 :: (hexEncodeU payload ++ hexByteU (calc_lrc payload)) ++ [13, 10]

/-- Embedding of `build_ascii_frame`.  Raises `ValueError` when the address is
outside 0-247, and (from `bytes([addr, func])`) when the function code is not
a byte. -/
def build_ascii_frame (addr func : Nat) (data : List Nat) : Except PyError (List Nat) :=
  if 248 ≤ addr then .error (.valueError "Address must be in 0-247")
  else if 256 ≤ func then .error (.valueError "bytes must be in range(0, 256)")
  else .ok (build_frame_bytes addr func data)

/-- Embedding of `frame.startswith(b":")` (the colon is byte 58). -/
def startsWithColon : List Nat → Bool
  | 58 :: _ => true
  | _ => false

/-- Embedding of `frame.endswith(b"\r\n")` / `buffer[-2:] == b"\r\n"`. -/
def endsWithCRLF (l : List Nat) : Bool :=
  match l.reverse with
  | 10 :: 13 :: _ => true
  | _ => false

/-- Strict UTF-8 decoder modelling Python's `bytes.decode()` (default codec,
strict errors): rejects stray continuation bytes, overlong encodings,
surrogates and code points above `0x10FFFF`.  The first argument is the
number of continuation bytes still expected (0 in the ground state), the
second the partial code point, the third the minimum legal code point for the
current sequence (overlong check). -/
def utf8Go : Nat → Nat → Nat → List Nat → Option (List Nat)
  | 0, _, _, [] => some []
  | 0, _, _, b :: rest =>
      if b < 128 then (utf8Go 0 0 0 rest).map (fun cs => b :: cs)
      else if b < 192 then none
      else if b < 224 then utf8Go 1 (b - 192) 128 rest
      else if b < 240 then utf8Go 2 (b - 224) 2048 rest
      else if b < 248 then utf8Go 3 (b - 240) 65536 rest
      else none
  | _ + 1, _, _, [] => none
  | need + 1, acc, minCp, b :: rest =>
      if 128 ≤ b ∧ b < 192 then
        let acc' := acc * 64 + (b - 128)
        match need with
        | 0 =>
            if minCp ≤ acc' ∧ ¬(55296 ≤ acc' ∧ acc' ≤ 57343) ∧ acc' ≤ 1114111 then
              (utf8Go 0 0 0 rest).map (fun cs => acc' :: cs)
            else none
        | Nat.succ n => utf8Go (Nat.succ n) acc' minCp rest
      else none

/-- Embedding of `frame[1:-2].decode()`: code points of the decoded string,
or `none` when the bytes are not valid UTF-8. -/
def utf8Decode (l : List Nat) : Option (List Nat) :=
  utf8Go 0 0 0 l

/-- Value of a hexadecimal digit character (code point), as accepted by
`bytes.fromhex` (both cases). -/
def hexVal (c : Nat) : Option Nat :=
  if 48 ≤ c ∧ c ≤ 57 then some (c - 48)
  else if 65 ≤ c ∧ c ≤ 70 then some (c - 55)
  else if 97 ≤ c ∧ c ≤ 102 then some (c - 87)
  else none

/-- ASCII whitespace skipped by `bytes.fromhex` between byte pairs. -/
def isPySpace (c : Nat) : Bool :=
  c = 32 ∨ c = 9 ∨ c = 10 ∨ c = 13 ∨ c = 11 ∨ c = 12

/-- Embedding of `bytes.fromhex`: skips ASCII whitespace between byte pairs,
then requires exactly two hex digits per byte (no whitespace inside a pair);
any other character raises `ValueError`. -/
def fromhex : List Nat → Option (List Nat)
  | [] => some []
  | [c] => if isPySpace c then some [] else none
  | c :: c2 :: rest =>
      if isPySpace c then fromhex (c2 :: rest)
      else
        match hexVal c, hexVal c2 with
        | some hi, some lo => (fromhex rest).map (fun bs => (hi * 16 + lo) :: bs)
        | _, _ => none

/-- Embedding of `parse_ascii_frame`: delimiter check, `frame[1:-2].decode()`,
length check on the decoded string, `bytes.fromhex`, the unpacking
`addr, func, *rest = raw`, and the LRC comparison.  Returns the
`(addr, func, data)` triple only on full success. -/
def parse_ascii_frame (frame : List Nat) : Except PyError (Nat × Nat × List Nat) :=
  if ¬(startsWithColon frame = true ∧ endsWithCRLF frame = true) then
    .error (.valueError "Bad frame delimiters")
  else
    match utf8Decode ((frame.drop 1).dropLast.dropLast) with
    | none => .error (.unicodeDecodeError "invalid utf-8 byte in frame body")
    | some hex_body =>
        if hex_body.length < 6 ∨ hex_body.length % 2 = 1 then
          .error (.valueError "Bad frame length")
        else
          match fromhex hex_body with
          | none => .error (.valueError "non-hexadecimal number found in fromhex() arg")
          | some raw =>
              match raw with
              | [] => .error (.valueError "not enough values to unpack (expected at least 2, got 0)")
              | [_] => .error (.valueError "not enough values to unpack (expected at least 2, got 1)")
              | addr :: func :: rest =>
                  match rest.getLast? with
                  | none => .error (.valueError "LRC error")
                  | some lrc_rx =>
                      if calc_lrc raw.dropLast ≠ lrc_rx then
                        .error (.valueError "LRC error")
                      else
                        .ok (addr, func, rest.dropLast)

/-- Dispatch portion of `slave_loop.maybe_process_frame`, after a frame has
parsed to `(a, func, data)`.  Returns the new stored text together with the
list of frames written to the serial port (in order).  A `build_ascii_frame`
failure inside a branch propagates (the `try` in the source only wraps the
parse). -/
def slave_dispatch (ownAddr : Nat) (stored : List Nat) (a func : Nat)
    (data : List Nat) : Except PyError (List Nat × List (List Nat)) :=
  if a ≠ 0 ∧ a ≠ ownAddr then .ok (stored, [])
  else if func = 1 then
    if a ≠ 0 then
      match build_ascii_frame ownAddr 1 [79, 75] with
      | .error e => .error e
      | .ok resp => .ok (data, [resp])
    else .ok (data, [])
  else if func = 2 then
    if a = 0 then .ok (stored, [])
    else
      match build_ascii_frame ownAddr 2 stored with
      | .error e => .error e
      | .ok resp => .ok (stored, [resp])
  else
    if a ≠ 0 then
      match build_ascii_frame ownAddr (func ||| 128) [48, 49] with
      | .error e => .error e
      | .ok resp => .ok (stored, [resp])
    else .ok (stored, [])

/-- Embedding of `slave_loop.maybe_process_frame` on a buffered frame: an
empty buffer is a no-op; a parse failure (any `ValueError`, which covers
every error of `parse_ascii_frame`) is logged and discarded; otherwise the
frame is dispatched. -/
def maybe_process_frame (ownAddr : Nat) (stored : List Nat) (buffer : List Nat) :
    Except PyError (List Nat × List (List Nat)) :=
  if buffer = [] then .ok (stored, [])
  else
    match parse_ascii_frame buffer with
    | .error _ => .ok (stored, [])
    | .ok (a, func, data) => slave_dispatch ownAddr stored a func data

/-- One iteration of the receive loop in `master_transaction`: the value of
`time.time()` at the `while` condition, the result of `sp.read(1)` (`none`
models an empty read after the port timeout), and the value of `time.time()`
taken right after the read. -/
structure RxEvent where
  tCheck : ℚ
  byte : Option Nat
  tNow : ℚ
  deriving Repr

/-- Receive loop of `master_transaction`: accumulate bytes until the buffer
ends in CRLF, or until a read returns nothing and the gap since the last byte
reaches `char_gap` (with the buffer non-empty and the recorded timestamp
truthy), returning the raw buffered bytes; `none` models the deadline
passing (also when the event trace is exhausted, since real time always
reaches the deadline).  Note the assembled bytes are returned as-is — this
function never parses them. -/
def master_rx (char_gap deadline : ℚ) : List RxEvent → List Nat → Option ℚ →
    Option (List Nat)
  | [], _, _ => none
  | ev :: rest, buffer, last_byte_time =>
      if ev.tCheck < deadline then
        match ev.byte with
        | some b =>
            let buffer' := buffer ++ [b]
            if endsWithCRLF buffer' then some buffer'
            else master_rx char_gap deadline rest buffer' (some ev.tNow)
        | none =>
            match last_byte_time with
            | some t =>
                if buffer ≠ [] ∧ t ≠ 0 ∧ char_gap ≤ ev.tNow - t then some buffer
                else master_rx char_gap deadline rest buffer (some t)
            | none => master_rx char_gap deadline rest buffer none
      else none

/-- Embedding of `master_transaction`: one write of the request frame (the
returned list is the TX log), then the receive loop.  The result is the raw
response bytes or `none` on timeout. -/
def master_transaction (frame : List Nat) (events : List RxEvent)
    (deadline char_gap : ℚ) : List (List Nat) × Option (List Nat) :=
  ([frame], master_rx char_gap deadline events [] none)

/-- Observable outcome of `run_master`: every frame written to the port (in
order), the final response of the loop, and whether the `for`-`else` branch
printed "Transaction failed after retries". -/
structure MasterRun where
  sent : List (List Nat)
  resp : Option (List Nat)
  failedAfterRetries : Bool
  deriving Repr, DecidableEq

/-- Retry loop of `run_master`: `for attempt in range(retries + 1)`, breaking
as soon as a response arrived or the address is the broadcast address 0.
The first argument of the recursion is the number of loop iterations left;
each attempt consumes one event trace (a missing trace behaves as an
exhausted one).  Reaching 0 without a break is the `for`-`else` failure. -/
def run_master_loop (frame : List Nat) (addr : Nat) (deadline char_gap : ℚ) :
    List (List RxEvent) → Nat → MasterRun
  | _, 0 => ⟨[], none, true⟩
  | evss, n + 1 =>
      let resp := master_rx char_gap deadline (evss.headD []) [] none
      if resp.isSome ∨ addr = 0 then ⟨[frame], resp, false⟩
      else
        let r := run_master_loop frame addr deadline char_gap evss.tail n
        ⟨frame :: r.sent, r.resp, r.failedAfterRetries⟩

/-- Embedding of the transaction part of `run_master`: the already-built
request frame is retransmitted up to `retries` extra times. -/
def run_master (frame : List Nat) (addr : Nat) (deadline char_gap : ℚ)
    (evss : List (List RxEvent)) (retries : Nat) : MasterRun :=
  run_master_loop frame addr deadline char_gap evss (retries + 1)

/-! Helper lemmas about the codec. -/

theorem calc_lrc_lt (p : List Nat) : calc_lrc p < 256 := by
  unfold calc_lrc
  have h := Int.emod_lt_of_pos (-(p.sum : Int)) (show (0 : Int) < 256 by norm_num)
  omega

theorem calc_lrc_cast (p : List Nat) :
    (calc_lrc p : Int) = (-(p.sum : Int)) % 256 := by
  unfold calc_lrc
  have h := Int.emod_nonneg (-(p.sum : Int)) (show (256 : Int) ≠ 0 by norm_num)
  omega

theorem hexDigitU_lt (n : Nat) (h : n < 16) : hexDigitU n < 128 := by
  unfold hexDigitU
  split <;> omega

theorem hexVal_hexDigitU (n : Nat) (h : n < 16) : hexVal (hexDigitU n) = some n := by
  unfold hexVal hexDigitU
  split_ifs <;> simp_all <;> omega

theorem isPySpace_hexDigitU (n : Nat) (h : n < 16) : isPySpace (hexDigitU n) = false := by
  unfold isPySpace hexDigitU
  split_ifs <;> simp <;> omega

theorem hexEncodeU_nil : hexEncodeU [] = [] := rfl

theorem hexEncodeU_cons (b : Nat) (l : List Nat) :
    hexEncodeU (b :: l) = hexDigitU (b / 16) :: hexDigitU (b % 16) :: hexEncodeU l := by
  simp [hexEncodeU, hexByteU]

theorem hexEncodeU_append (l₁ l₂ : List Nat) :
    hexEncodeU (l₁ ++ l₂) = hexEncodeU l₁ ++ hexEncodeU l₂ := by
  simp [hexEncodeU]

theorem hexEncodeU_length (l : List Nat) : (hexEncodeU l).length = 2 * l.length := by
  induction l with
  | nil => rfl
  | cons b l ih => rw [hexEncodeU_cons]; simp [ih]; omega

theorem hexEncodeU_mem_lt (l : List Nat) (h : ∀ b ∈ l, b < 256) :
    ∀ c ∈ hexEncodeU l, c < 128 := by
  induction l with
  | nil => simp [hexEncodeU_nil]
  | cons b l ih =>
      rw [hexEncodeU_cons]
      intro c hc
      simp only [List.mem_cons] at hc
      have hb : b < 256 := h b (by simp)
      rcases hc with rfl | rfl | hc
      · exact hexDigitU_lt _ (by omega)
      · exact hexDigitU_lt _ (Nat.mod_lt _ (by omega))
      · exact ih (fun x hx => h x (by simp [hx])) c hc

theorem utf8Go_ascii (l : List Nat) (h : ∀ b ∈ l, b < 128) :
    utf8Go 0 0 0 l = some l := by
  induction l with
  | nil => rw [utf8Go]
  | cons b rest ih =>
      rw [utf8Go]
      rw [if_pos (h b (by simp))]
      rw [ih (fun x hx => h x (by simp [hx]))]
      rfl

theorem utf8Decode_ascii (l : List Nat) (h : ∀ b ∈ l, b < 128) :
    utf8Decode l = some l :=
  utf8Go_ascii l h

theorem fromhex_hexEncodeU (l : List Nat) (h : ∀ b ∈ l, b < 256) :
    fromhex (hexEncodeU l) = some l := by
  induction l with
  | nil => rw [hexEncodeU_nil, fromhex]
  | cons b rest ih =>
      have hb : b < 256 := h b (by simp)
      have hdiv : b / 16 < 16 := by omega
      have hmod : b % 16 < 16 := Nat.mod_lt _ (by omega)
      rw [hexEncodeU_cons, fromhex]
      rw [if_neg (by simp [isPySpace_hexDigitU _ hdiv])]
      simp only [hexVal_hexDigitU _ hdiv, hexVal_hexDigitU _ hmod]
      rw [ih (fun x hx => h x (by simp [hx]))]
      simp only [Option.map_some']
      have : b / 16 * 16 + b % 16 = b := by omega
      rw [this]

theorem dropLast_append_two (l : List Nat) (a b : Nat) :
    (l ++ [a, b]).dropLast.dropLast = l := by
  have h1 : l ++ [a, b] = (l ++ [a]) ++ [b] := by simp
  rw [h1, List.dropLast_concat, List.dropLast_concat]

theorem endsWithCRLF_append (l : List Nat) : endsWithCRLF (l ++ [13, 10]) = true := by
  unfold endsWithCRLF
  simp

theorem fromhex_chars_aux : ∀ (n : Nat) (l bs : List Nat), l.length ≤ n →
    fromhex l = some bs →
    ∀ c ∈ l, (hexVal c).isSome = true ∨ isPySpace c = true := by
  intro n
  induction n with
  | zero =>
      intro l bs hl _ c hc
      cases l with
      | nil => simp at hc
      | cons a t => simp at hl
  | succ n ih =>
      intro l bs hl h c hc
      cases l with
      | nil => simp at hc
      | cons a t =>
          cases t with
          | nil =>
              rw [fromhex] at h
              by_cases hs : isPySpace a = true
              · simp only [List.mem_cons, List.not_mem_nil, or_false] at hc
                rw [hc]
                exact Or.inr hs
              · rw [if_neg hs] at h
                exact absurd h (by simp)
          | cons a2 t2 =>
              rw [fromhex] at h
              by_cases hs : isPySpace a = true
              · rw [if_pos hs] at h
                simp only [List.mem_cons] at hc
                rcases hc with rfl | hc
                · exact Or.inr hs
                · exact ih (a2 :: t2) bs (by simp at hl ⊢; omega) h c (by simpa using hc)
              · rw [if_neg hs] at h
                rcases hva : hexVal a with _ | hi
                · simp [hva] at h
                · rcases hva2 : hexVal a2 with _ | lo
                  · simp [hva, hva2] at h
                  · simp only [hva, hva2] at h
                    rcases hf : fromhex t2 with _ | bs2
                    · simp [hf] at h
                    · simp only [List.mem_cons] at hc
                      rcases hc with rfl | rfl | hc
                      · exact Or.inl (by simp [hva])
                      · exact Or.inl (by simp [hva2])
                      · exact ih t2 bs2 (by simp at hl; omega) hf c hc

theorem fromhex_chars (l bs : List Nat) (h : fromhex l = some bs) :
    ∀ c ∈ l, (hexVal c).isSome = true ∨ isPySpace c = true :=
  fromhex_chars_aux l.length l bs le_rfl h

/-! Settled claims. -/

/-- C9: `calc_lrc` is the two's complement of the byte sum truncated to 8 bits
(`(-sum(payload)) & 0xFF`, i.e. `-sum(payload)` modulo 256), and appending the
checksum byte makes the extended sum vanish modulo 256, so the LRC of the
extended payload is 0. -/
theorem C9_lrc_twos_complement (p : List Nat) :
    (calc_lrc p : Int) = (-(p.sum : Int)) % 256 ∧
    (p.sum + calc_lrc p) % 256 = 0 ∧
    calc_lrc (p ++ [calc_lrc p]) = 0 := by
  have h1 := calc_lrc_cast p
  refine ⟨h1, by omega, ?_⟩
  have h3 := calc_lrc_cast (p ++ [calc_lrc p])
  have h4 : (p ++ [calc_lrc p]).sum = p.sum + calc_lrc p := by simp
  rw [h4, Nat.cast_add] at h3
  omega

/-- C1: round-trip law.  For every address in 0-247, every function byte and
every data byte string, building a frame and parsing it back yields exactly
the original triple, with no error. -/
theorem C1_roundtrip (addr func : Nat) (data : List Nat)
    (haddr : addr ≤ 247) (hfunc : func < 256) (hdata : ∀ b ∈ data, b < 256) :
    (build_ascii_frame addr func data).bind parse_ascii_frame =
      Except.ok (addr, func, data) := by
  have hbuild : build_ascii_frame addr func data = .ok (build_frame_bytes addr func data) := by
    unfold build_ascii_frame
    rw [if_neg (by omega), if_neg (by omega)]
  rw [hbuild]
  show parse_ascii_frame (build_frame_bytes addr func data) = Except.ok (addr, func, data)
  have hframe : build_frame_bytes addr func data =
      58 :: ((hexEncodeU (addr :: func :: data) ++
        hexByteU (calc_lrc (addr :: func :: data))) ++ [13, 10]) := rfl
  rw [hframe]
  set payload := addr :: func :: data with hpayload
  set lrc := calc_lrc payload with hlrc
  have hp256 : ∀ b ∈ payload ++ [lrc], b < 256 := by
    intro b hb
    simp only [hpayload, List.mem_append, List.mem_cons,
      List.not_mem_nil, or_false] at hb
    rcases hb with (rfl | rfl | hb) | rfl
    · omega
    · omega
    · exact hdata b hb
    · exact hlrc ▸ calc_lrc_lt payload
  have hbody : hexEncodeU payload ++ hexByteU lrc = hexEncodeU (payload ++ [lrc]) := by
    rw [hexEncodeU_append]
    simp [hexEncodeU, hexByteU]
  rw [hbody]
  set G := hexEncodeU (payload ++ [lrc]) with hG
  unfold parse_ascii_frame
  have hstart : startsWithColon (58 :: (G ++ [13, 10])) = true := rfl
  have hend : endsWithCRLF (58 :: (G ++ [13, 10])) = true := by
    unfold endsWithCRLF
    simp
  rw [if_neg (by simp [hstart, hend])]
  have hdrop : ((58 :: (G ++ [13, 10])).drop 1).dropLast.dropLast = G := by
    show (G ++ [13, 10]).dropLast.dropLast = G
    exact dropLast_append_two _ _ _
  rw [hdrop]
  have hdecode : utf8Decode G = some G :=
    utf8Decode_ascii G (hexEncodeU_mem_lt _ hp256)
  have hlen : G.length = 2 * (payload ++ [lrc]).length := by
    rw [hG]; exact hexEncodeU_length _
  have hlenval : (payload ++ [lrc]).length = 3 + data.length := by
    simp only [hpayload, List.length_append, List.length_cons, List.length_nil]
    omega
  have hlenG : ¬(G.length < 6 ∨ G.length % 2 = 1) := by
    rw [hlen, hlenval]; omega
  have hfrom : fromhex G = some (payload ++ [lrc]) := by
    rw [hG]; exact fromhex_hexEncodeU _ hp256
  have hraw : payload ++ [lrc] = addr :: func :: (data ++ [lrc]) := by
    simp [hpayload]
  have hlast : (data ++ [lrc]).getLast? = some lrc := List.getLast?_concat _
  have hdl3 : (addr :: func :: (data ++ [lrc])).dropLast = payload := by
    rw [hpayload]
    show ((addr :: func :: data) ++ [lrc]).dropLast = addr :: func :: data
    exact List.dropLast_concat
  have hdl4 : (data ++ [lrc]).dropLast = data := List.dropLast_concat
  have hlrcneq : ¬(calc_lrc (addr :: func :: (data ++ [lrc])).dropLast ≠ lrc) := by
    rw [hdl3]
    exact fun h => h hlrc.symm
  simp only [hdecode]
  rw [if_neg hlenG]
  simp only [hfrom, hraw, hlast, hdl4]
  rw [if_neg hlrcneq]

/-- C1 witness: Scenario A of the spec, `build(5, 1, b"HI")`, round-trips. -/
theorem C1_roundtrip_witness :
    (build_ascii_frame 5 1 [72, 73]).bind parse_ascii_frame =
      Except.ok (5, 1, [72, 73]) :=
  C1_roundtrip 5 1 [72, 73] (by decide) (by decide) (by decide)

/-- C3 counterexample: a framing failure (empty input) and a checksum failure
(the well-delimited frame `:000001\r\n`, whose received LRC `0x01` differs
from the recomputed `0x00`) produce errors of the SAME Python kind
(`ValueError` both times, equal `pyClass`), differing only in the message
string — so a caller cannot tell which occurred without inspecting message
text, refuting the claim as stated. -/
theorem C3_kinds_counterexample :
    parse_ascii_frame [] = .error (.valueError "Bad frame delimiters") ∧
    parse_ascii_frame [58, 48, 48, 48, 48, 48, 49, 13, 10] =
      .error (.valueError "LRC error") ∧
    (PyError.valueError "Bad frame delimiters").pyClass =
      (PyError.valueError "LRC error").pyClass ∧
    PyError.valueError "Bad frame delimiters" ≠ PyError.valueError "LRC error" :=
  ⟨rfl, rfl, rfl, by decide⟩

/-- C3 amended: every failure of `parse_ascii_frame` is an instance of the
single Python kind `ValueError` (the decode failure being its subclass
`UnicodeDecodeError`); framing and checksum failures are distinguishable only
by message text — framing failures carry "Bad frame delimiters" or
"Bad frame length" and checksum failures carry "LRC error", and these message
strings are pairwise distinct. -/
theorem C3_amended_same_kind (frame : List Nat) (e : PyError)
    (h : parse_ascii_frame frame = .error e) :
    e.isValueErrorInstance = true ∧
    (e.pyMsg = "Bad frame delimiters" ∨ e.pyMsg = "Bad frame length" ∨
      e.pyMsg = "LRC error" ∨
      e.pyMsg = "non-hexadecimal number found in fromhex() arg" ∨
      e.pyMsg = "not enough values to unpack (expected at least 2, got 0)" ∨
      e.pyMsg = "not enough values to unpack (expected at least 2, got 1)" ∨
      e.pyMsg = "invalid utf-8 byte in frame body") ∧
    ("LRC error" ≠ "Bad frame delimiters" ∧ "LRC error" ≠ "Bad frame length") := by
  refine ⟨by cases e <;> rfl, ?_, by decide⟩
  unfold parse_ascii_frame at h
  split at h
  · cases h; simp [PyError.pyMsg]
  · split at h
    · cases h; simp [PyError.pyMsg]
    · split at h
      · cases h; simp [PyError.pyMsg]
      · split at h
        · cases h; simp [PyError.pyMsg]
        · split at h
          · cases h; simp [PyError.pyMsg]
          · cases h; simp [PyError.pyMsg]
          · split at h
            · cases h; simp [PyError.pyMsg]
            · split at h
              · cases h; simp [PyError.pyMsg]
              · cases h

/-- C3 amended witness at the empty input (a framing failure). -/
theorem C3_amended_same_kind_witness :
    (PyError.valueError "Bad frame delimiters").isValueErrorInstance = true ∧
    ((PyError.valueError "Bad frame delimiters").pyMsg = "Bad frame delimiters" ∨
      (PyError.valueError "Bad frame delimiters").pyMsg = "Bad frame length" ∨
      (PyError.valueError "Bad frame delimiters").pyMsg = "LRC error" ∨
      (PyError.valueError "Bad frame delimiters").pyMsg =
        "non-hexadecimal number found in fromhex() arg" ∨
      (PyError.valueError "Bad frame delimiters").pyMsg =
        "not enough values to unpack (expected at least 2, got 0)" ∨
      (PyError.valueError "Bad frame delimiters").pyMsg =
        "not enough values to unpack (expected at least 2, got 1)" ∨
      (PyError.valueError "Bad frame delimiters").pyMsg =
        "invalid utf-8 byte in frame body") ∧
    ("LRC error" ≠ "Bad frame delimiters" ∧ "LRC error" ≠ "Bad frame length") :=
  C3_amended_same_kind [] (.valueError "Bad frame delimiters") rfl

/-- C10 counterexample: the input `:0501FA  \r\n` starts with the marker,
ends with the terminator, and its 8-character body `0501FA␣␣` is even and of
length at least 6 while containing a character (the space, 32) that is not a
hexadecimal digit — yet `parse_ascii_frame` returns the triple `(5, 1, b"")`,
because `bytes.fromhex` skips ASCII whitespace.  The claim "parse never
returns a triple" is therefore false as stated. -/
theorem C10_whitespace_counterexample :
    startsWithColon [58, 48, 53, 48, 49, 70, 65, 32, 32, 13, 10] = true ∧
    endsWithCRLF [58, 48, 53, 48, 49, 70, 65, 32, 32, 13, 10] = true ∧
    (([58, 48, 53, 48, 49, 70, 65, 32, 32, 13, 10].drop 1).dropLast.dropLast =
      [48, 53, 48, 49, 70, 65, 32, 32] ∧
      ([48, 53, 48, 49, 70, 65, 32, 32] : List Nat).length = 8 ∧
      32 ∈ ([48, 53, 48, 49, 70, 65, 32, 32] : List Nat) ∧ hexVal 32 = none) ∧
    parse_ascii_frame [58, 48, 53, 48, 49, 70, 65, 32, 32, 13, 10] =
      .ok (5, 1, []) :=
  ⟨rfl, rfl, ⟨rfl, rfl, by decide, rfl⟩, rfl⟩

/-- C10 amended: whenever `parse_ascii_frame` returns a triple, every
character of the decoded hex body is a hexadecimal digit or ASCII whitespace;
hence a body containing any character that is neither (or bytes that do not
decode at all) never yields a triple.  Moreover every parse failure is an
instance of the single exception kind `ValueError` (`UnicodeDecodeError`
included, as its Python subclass), so the slave's catch-and-discard
`except ValueError` path handles all of them. -/
theorem C10_amended_hex_or_space :
    (∀ frame a f d, parse_ascii_frame frame = .ok (a, f, d) →
      ∃ body, utf8Decode ((frame.drop 1).dropLast.dropLast) = some body ∧
        ∀ c ∈ body, (hexVal c).isSome = true ∨ isPySpace c = true) ∧
    (∀ frame e, parse_ascii_frame frame = .error e →
      e.isValueErrorInstance = true) := by
  constructor
  · intro frame a f d h
    unfold parse_ascii_frame at h
    split at h
    · cases h
    · split at h
      · cases h
      · next hex_body hdec =>
          refine ⟨hex_body, hdec, ?_⟩
          split at h
          · cases h
          · split at h
            · cases h
            · next raw hfrom => exact fromhex_chars hex_body raw hfrom
  · intro frame e _
    cases e <;> rfl

/-- C10 amended witness: the whitespace frame for the first conjunct, the
empty input for the second. -/
theorem C10_amended_hex_or_space_witness :
    (∃ body,
      utf8Decode (([58, 48, 53, 48, 49, 70, 65, 32, 32, 13, 10].drop
        1).dropLast.dropLast) = some body ∧
        ∀ c ∈ body, (hexVal c).isSome = true ∨ isPySpace c = true) ∧
    (PyError.valueError "Bad frame delimiters").isValueErrorInstance = true :=
  ⟨C10_amended_hex_or_space.1 [58, 48, 53, 48, 49, 70, 65, 32, 32, 13, 10]
      5 1 [] rfl,
    C10_amended_hex_or_space.2 [] (.valueError "Bad frame delimiters") rfl⟩

theorem lor128_lt (func : Nat) (h : func < 256) : func ||| 128 < 256 := by
  have h2 : (128 : Nat) < 2 ^ 8 := by norm_num
  exact Nat.bitwise_lt (n := 8) h h2

theorem build_ok (addr func : Nat) (data : List Nat)
    (ha : addr ≤ 247) (hf : func < 256) :
    build_ascii_frame addr func data = .ok (build_frame_bytes addr func data) := by
  unfold build_ascii_frame
  rw [if_neg (by omega), if_neg (by omega)]

/-- C6: a WriteText frame (function 1) addressed to the station (own address
or broadcast 0) overwrites the stored text with `data` unconditionally; a
unicast write is acknowledged with exactly one reply frame
`build(ownAddress, 1, b"OK")`, while a broadcast write produces no reply. -/
theorem C6_writeText (ownAddr : Nat) (stored data : List Nat) (a : Nat)
    (hown : ownAddr ≤ 247) (ha : a = 0 ∨ a = ownAddr) :
    slave_dispatch ownAddr stored a 1 data =
      .ok (data, if a = 0 then [] else [build_frame_bytes ownAddr 1 [79, 75]]) := by
  have hb := build_ok ownAddr 1 [79, 75] hown (by omega)
  unfold slave_dispatch
  rw [if_neg (by rcases ha with rfl | rfl <;> simp)]
  by_cases h0 : a = 0 <;> simp [h0, hb]

/-- C6 witness: a slave at address 5 receiving a broadcast WriteText
(Scenario B) stores the data and sends nothing; contrast values shown for the
unicast acknowledgement are covered by the `if`. -/
theorem C6_writeText_witness :
    slave_dispatch 5 [1] 0 1 [72, 73] =
      .ok ([72, 73], if (0 : Nat) = 0 then [] else [build_frame_bytes 5 1 [79, 75]]) :=
  C6_writeText 5 [1] [72, 73] 0 (by decide) (Or.inl rfl)

/-- C7: a ReadText frame (function 2) with broadcast address 0 is discarded
with no reply and the stored text unchanged; a unicast ReadText to the
station's own address is answered with exactly one reply frame
`build(ownAddress, 2, storedText)` carrying the full stored text, which is
left unchanged. -/
theorem C7_readText (ownAddr : Nat) (stored data : List Nat) (a : Nat)
    (hown : ownAddr ≤ 247) (ha : a = 0 ∨ a = ownAddr) :
    slave_dispatch ownAddr stored a 2 data =
      .ok (stored, if a = 0 then [] else [build_frame_bytes ownAddr 2 stored]) := by
  have hb := build_ok ownAddr 2 stored hown (by omega)
  unfold slave_dispatch
  rw [if_neg (by rcases ha with rfl | rfl <;> simp)]
  by_cases h0 : a = 0 <;> simp [h0, hb]

/-- C7 witness: Scenario C — a slave at address 5 receiving a ReadText
broadcast discards the request and sends nothing. -/
theorem C7_readText_witness :
    slave_dispatch 5 [88] 0 2 [] =
      .ok ([88], if (0 : Nat) = 0 then [] else [build_frame_bytes 5 2 [88]]) :=
  C7_readText 5 [88] [] 0 (by decide) (Or.inl rfl)

/-- C8: a frame whose function code is neither 1 nor 2, when unicast to the
station's own address, is answered with exactly the exception frame
`build(ownAddress, function | 0x80, b"01")` and the stored text is unchanged;
when broadcast, nothing is sent and the stored text is unchanged. -/
theorem C8_unsupported (ownAddr a func : Nat) (stored data : List Nat)
    (hown : ownAddr ≤ 247) (hfunc : func < 256) (h1 : func ≠ 1) (h2 : func ≠ 2)
    (ha : a = 0 ∨ a = ownAddr) :
    slave_dispatch ownAddr stored a func data =
      .ok (stored,
        if a = 0 then []
        else [build_frame_bytes ownAddr (func ||| 128) [48, 49]]) := by
  have hb := build_ok ownAddr (func ||| 128) [48, 49] hown (lor128_lt func hfunc)
  unfold slave_dispatch
  rw [if_neg (by rcases ha with rfl | rfl <;> simp)]
  rw [if_neg h1, if_neg h2]
  by_cases h0 : a = 0 <;> simp [h0, hb]

/-- C8 witness: a slave at address 5 receiving unicast function 7 replies
with the exception frame for function `7 | 0x80 = 135` and payload "01". -/
theorem C8_unsupported_witness :
    slave_dispatch 5 [1] 5 7 [] =
      .ok ([1],
        if (5 : Nat) = 0 then []
        else [build_frame_bytes 5 (7 ||| 128) [48, 49]]) :=
  C8_unsupported 5 5 7 [1] [] (by decide) (by decide) (by decide) (by decide)
    (Or.inr rfl)

/-- C2 counterexample: the master never parses the assembled response.  On
the byte stream `X\r\n` the receive loop assembles `[88, 13, 10]`, which
`parse_ascii_frame` rejects with a framing `ValueError` — yet
`master_transaction` returns those raw bytes and `run_master` ends the
transaction reporting them as its (successful, un-flagged) result, surfacing
no error.  The final conjunct refutes the claim as stated: it is not the case
that every assembled-and-returned response parses. -/
theorem C2_no_parse_counterexample :
    (master_rx 1 10 [⟨0, some 88, 1⟩, ⟨0, some 13, 1⟩, ⟨0, some 10, 1⟩] [] none =
        some [88, 13, 10] ∧
      parse_ascii_frame [88, 13, 10] =
        .error (.valueError "Bad frame delimiters") ∧
      run_master [1] 9 10 1
          [[⟨0, some 88, 1⟩, ⟨0, some 13, 1⟩, ⟨0, some 10, 1⟩]] 2 =
        ⟨[[1]], some [88, 13, 10], false⟩) ∧
    ¬(∀ (events : List RxEvent) (deadline char_gap : ℚ) (r : List Nat),
        master_rx char_gap deadline events [] none = some r →
        ∃ a f d, parse_ascii_frame r = Except.ok (a, f, d)) := by
  refine ⟨⟨rfl, rfl, rfl⟩, ?_⟩
  intro hclaim
  obtain ⟨a, f, d, heq⟩ := hclaim
    [⟨0, some 88, 1⟩, ⟨0, some 13, 1⟩, ⟨0, some 10, 1⟩] 10 1 [88, 13, 10] rfl
  rw [show parse_ascii_frame [88, 13, 10] =
    Except.error (PyError.valueError "Bad frame delimiters") from rfl] at heq
  cases heq

/-- C2 amended: if a response frame is assembled before the deadline
(terminator or gap timeout), the master returns the raw assembled bytes,
unparsed, as the transaction result, and the transaction ends immediately —
no retransmission and no failure flag — whether or not those bytes form a
valid frame. -/
theorem C2_amended_returns_raw (frame : List Nat) (addr : Nat)
    (deadline char_gap : ℚ) (evss : List (List RxEvent)) (retries : Nat)
    (r : List Nat)
    (h : master_rx char_gap deadline (evss.headD []) [] none = some r) :
    run_master frame addr deadline char_gap evss retries =
      ⟨[frame], some r, false⟩ := by
  unfold run_master
  simp only [run_master_loop, h]
  simp

/-- C2 amended witness: the garbage frame `X\r\n` is returned raw. -/
theorem C2_amended_returns_raw_witness :
    run_master [1] 9 10 1
        [[⟨0, some 88, 1⟩, ⟨0, some 13, 1⟩, ⟨0, some 10, 1⟩]] 2 =
      ⟨[[1]], some [88, 13, 10], false⟩ :=
  C2_amended_returns_raw [1] 9 10 1
    [[⟨0, some 88, 1⟩, ⟨0, some 13, 1⟩, ⟨0, some 10, 1⟩]] 2 [88, 13, 10] rfl

/-- C4: a unicast transaction (address not 0) in which no attempt ever
assembles a response performs exactly `retries + 1` transmissions of the
identical request frame and ends with the failure outcome reported (the
`for`-`else` "Transaction failed after retries" branch), never silently
swallowed. -/
theorem C4_retries_exhausted (frame : List Nat) (addr : Nat)
    (deadline char_gap : ℚ) (evss : List (List RxEvent)) (retries : Nat)
    (haddr : addr ≠ 0)
    (hnone : ∀ evs ∈ evss, master_rx char_gap deadline evs [] none = none) :
    run_master frame addr deadline char_gap evss retries =
      ⟨List.replicate (retries + 1) frame, none, true⟩ := by
  unfold run_master
  suffices hgen : ∀ (n : Nat) (evss : List (List RxEvent)),
      (∀ evs ∈ evss, master_rx char_gap deadline evs [] none = none) →
      run_master_loop frame addr deadline char_gap evss n =
        ⟨List.replicate n frame, none, true⟩ from hgen (retries + 1) evss hnone
  intro n
  induction n with
  | zero => intro evss _; rfl
  | succ n ih =>
      intro evss hnone2
      have hresp : master_rx char_gap deadline (evss.headD []) [] none = none := by
        cases evss with
        | nil => rfl
        | cons e es => exact hnone2 e (by simp)
      have ihres := ih evss.tail (fun evs hm => hnone2 evs (List.mem_of_mem_tail hm))
      simp only [run_master_loop, hresp, ihres]
      simp [haddr, List.replicate_succ]

/-- C4 witness: Scenario D — the ReadText request to address 9 with
`maxRetries = 2` and no slave present is transmitted exactly 3 times and the
transaction fails. -/
theorem C4_retries_exhausted_witness :
    run_master [58, 48, 57, 48, 50, 70, 53, 13, 10] 9 10 1 [] 2 =
      ⟨List.replicate 3 [58, 48, 57, 48, 50, 70, 53, 13, 10], none, true⟩ :=
  C4_retries_exhausted [58, 48, 57, 48, 50, 70, 53, 13, 10] 9 10 1 [] 2
    (by decide) (by simp)

/-- C5: a broadcast transaction (address 0) transmits the request exactly
once, for every `maxRetries` in 0..5, and never sets the failure flag; when
no response frame is assembled before the deadline it terminates with an
absent response, still without failure. -/
theorem C5_broadcast_single_send (frame : List Nat) (deadline char_gap : ℚ)
    (evss : List (List RxEvent)) (retries : Nat) (hr : retries ≤ 5) :
    (run_master frame 0 deadline char_gap evss retries).sent = [frame] ∧
    (run_master frame 0 deadline char_gap evss retries).failedAfterRetries = false ∧
    (master_rx char_gap deadline (evss.headD []) [] none = none →
      (run_master frame 0 deadline char_gap evss retries).resp = none) := by
  refine ⟨?_, ?_, ?_⟩ <;> simp only [run_master, run_master_loop]
  · simp
  · simp
  · intro h
    cases evss with
    | nil => simpa using h
    | cons e es => simpa using h

/-- C5 witness: Scenario E at `maxRetries = 5` with no reply: one
transmission, success, absent response. -/
theorem C5_broadcast_single_send_witness :
    (run_master [1] 0 10 1 [] 5).sent = [[1]] ∧
    (run_master [1] 0 10 1 [] 5).failedAfterRetries = false ∧
    (master_rx 1 10 (([] : List (List RxEvent)).headD []) [] none = none →
      (run_master [1] 0 10 1 [] 5).resp = none) :=
  C5_broadcast_single_send [1] 10 1 [] 5 (by decide)

end ModbusAscii
